import Mathlib

/-!
Shallow embedding of the chat router of shark-chat-js
(src/packages/server/routers/chat.ts) and proofs of the specification
claims about it.

The database is modelled as lists of rows; each tRPC procedure becomes a
Lean function from a database state (plus the acting session user and the
store-assigned current time) to a new state, a list of published events,
and an outcome.  A transaction is a single atomic step: on an error inside
the transaction the original state is returned (rollback).

Code of the repository that is not under src (the permission resolver,
the redis last-read tracker, requireOne, the inworld notifier, the zod
contentSchema) is modelled from the spec; each such definition carries a
doc comment starting with "Modelled from the spec:".
-/

deriving instance DecidableEq for Except

/-- TRPC error codes used by the router (from TRPCError in the source) plus
the codes the spec assigns to the modelled permission resolver. -/
inductive ErrCode where
  | NOT_FOUND
  | BAD_REQUEST
  | FORBIDDEN
  | INTERNAL_SERVER_ERROR
deriving DecidableEq, Repr

/-- An error raised by a procedure: a TRPC code and a message string. -/
structure ApiError where
  code : ErrCode
  message : String
deriving DecidableEq, Repr

/-- The spec taxonomy of failures (spec section 7). -/
inductive SpecFailure where
  | BadRequest
  | Forbidden
  | NotFound
  | Internal
deriving DecidableEq, Repr

def emptyMessageMsg : String := "Message is empty"
def updateDeniedMsg : String := "No permission or message doesn\x27t exist"
def deleteDeniedMsg : String := "Missing required permission"
def messageNotFoundMsg : String := "Message not found"
def userNotFoundMsg : String := "User not found"
def requireOneMsg : String := "expected exactly one row"
def channelNotFoundMsg : String := "Channel not found"
def notMemberMsg : String := "Not a member of the channel"

/-- Modelled from the spec: section 7 names the failure classes.  BAD_REQUEST
with one of the two permission-denial messages is, in the words of the spec,
a `Forbidden` failure (the update conflation, deliberately; and the delete
permission denial); BAD_REQUEST otherwise is a malformed-input `BadRequest`;
NOT_FOUND and FORBIDDEN map to `NotFound` and `Forbidden` directly. -/
def specClass (e : ApiError) : SpecFailure :=
  match e.code with
  | .NOT_FOUND => .NotFound
  | .FORBIDDEN => .Forbidden
  | .INTERNAL_SERVER_ERROR => .Internal
  | .BAD_REQUEST =>
      if e.message = updateDeniedMsg ∨ e.message = deleteDeniedMsg then
        .Forbidden
      else .BadRequest

/-- A row of the users table, restricted to the public profile columns the
router selects (userProfileKeys = id, name, image). -/
structure UserRow where
  id : String
  name : String
  image : Option String
deriving DecidableEq, Repr

/-- A row of the messages table.  Timestamps are store-assigned naturals
(the ordering and cursor key). -/
structure MessageRow where
  id : Nat
  author_id : String
  content : String
  channel_id : String
  attachment_id : Option String
  reply_id : Option Nat
  timestamp : Nat
deriving DecidableEq, Repr

/-- An uploaded attachment descriptor (shared/schema uploadAttachmentSchema):
name, url, media type, optional width and height. -/
structure UploadAttachment where
  name : String
  url : String
  media : String
  width : Option Nat
  height : Option Nat
deriving DecidableEq, Repr

/-- A row of the attachments table: descriptor fields plus the generated id,
width and height defaulted to null when absent. -/
structure AttachmentRow where
  id : String
  name : String
  url : String
  media : String
  width : Option Nat
  height : Option Nat
deriving DecidableEq, Repr

/-- A row of the messageChannels table (the per-channel summary): channel id
and the denormalized last-message pointer. -/
structure MessageChannelRow where
  id : String
  last_message_id : Option Nat
deriving DecidableEq, Repr

/-- A row of the directMessageInfos table: one row per side of a DM channel;
openFlag models the `open` column (open is a Lean keyword). -/
structure DirectMessageInfoRow where
  channel_id : String
  user_id : String
  to_user_id : String
  openFlag : Bool
deriving DecidableEq, Repr

/-- A row of the groups table: the group channel id and its owner. -/
structure GroupRow where
  id : String
  owner_id : String
deriving DecidableEq, Repr

/-- The database state: the tables the router touches, the redis last-read
store, and the counters from which store-assigned identifiers are drawn. -/
structure DB where
  users : List UserRow
  messages : List MessageRow
  attachments : List AttachmentRow
  messageChannels : List MessageChannelRow
  directMessageInfos : List DirectMessageInfoRow
  groups : List GroupRow
  members : List (String × String)
  lastRead : List ((String × String) × Nat)
  nextMessageId : Nat
  nextAttachmentNonce : Nat
deriving DecidableEq, Repr

/-- Events published to the pub/sub transport by the router, tagged with the
topic address (channel id or recipient user id). -/
inductive Event where
  | message_sent (channelId : String) (messageId : Nat)
  | open_dm (toUser : String) (channelId : String) (authorId : String)
  | message_updated (channelId : String) (id : Nat) (content : String)
  | message_deleted (channelId : String) (id : Nat)
  | typing (channelId : String) (userId : String)
  | bot_notify (content : String) (channel_id : String) (user_name : String)
deriving DecidableEq, Repr

/-- Modelled from the spec: getLastRead from server/redis/last-read (not under
src); section 4.5: get(channelId, userId) returns the stored timestamp or
absent. -/
def getLastRead (db : DB) (channelId : String) (userId : String) : Option Nat :=
  (db.lastRead.find? fun e => e.1 = (channelId, userId)).map (·.2)

/-- Modelled from the spec: setLastRead from server/redis/last-read (not under
src); section 4.5: set(channelId, userId, timestamp), last-writer-wins upsert. -/
def setLastRead (db : DB) (channelId : String) (userId : String) (t : Nat) : DB :=
  { db with lastRead :=
      ((channelId, userId), t) ::
        db.lastRead.filter fun e => ¬(e.1 = (channelId, userId)) }

/-- Modelled from the spec: requireOne from db/utils (not under src): yields
the sole row of a query result, failing when the result is not exactly one
row. -/
def requireOne {α : Type} (l : List α) : Except ApiError α :=
  match l with
  | [x] => Except.ok x
  | _ => Except.error ⟨.INTERNAL_SERVER_ERROR, requireOneMsg⟩

/-- The data returned by the permission resolver for a DM channel: the channel
id and the counterpart user (to_user_id), as used by the send procedure. -/
structure DmData where
  channel_id : String
  to_user_id : String
deriving DecidableEq, Repr

/-- The kind-tagged result of the permission resolver. -/
inductive PermInfo where
  | dm (data : DmData)
  | group (g : GroupRow)
deriving DecidableEq, Repr

/-- Modelled from the spec: checkChannelPermissions from server/utils/permissions
(not under src); section 4.1: resolve(channelId, actingIdentity) determines the
channel kind and fails with NotFound when the channel does not exist, Forbidden
when the identity is not a participant (DM side) or member/owner (group). -/
def checkChannelPermissions (db : DB) (channelId : String) (userId : String) :
    Except ApiError PermInfo :=
  if (db.messageChannels.find? fun r => r.id = channelId).isNone then
    Except.error ⟨.NOT_FOUND, channelNotFoundMsg⟩
  else
    match db.directMessageInfos.find? fun r =>
        r.channel_id = channelId ∧ r.user_id = userId with
    | some info => Except.ok (.dm ⟨channelId, info.to_user_id⟩)
    | none =>
      if (db.directMessageInfos.find? fun r => r.channel_id = channelId).isSome then
        Except.error ⟨.FORBIDDEN, notMemberMsg⟩
      else
        match db.groups.find? fun g => g.id = channelId with
        | some g =>
            if g.owner_id = userId ∨ (channelId, userId) ∈ db.members then
              Except.ok (.group g)
            else Except.error ⟨.FORBIDDEN, notMemberMsg⟩
        | none => Except.error ⟨.FORBIDDEN, notMemberMsg⟩

/-- Modelled from the spec: onReceiveMessage from server/inworld (not under
src), the bot-mention notifier wrapper.  Sections 5 and 7: bot-notify failures
are swallowed at the edge of the core, logged and dropped, never surfaced to
the caller.  The Bool argument says whether the external call fails internally;
the returned event records the invocation (content, channel id, author name). -/
def onReceiveMessage (innerFails : Bool) (content : String) (channel_id : String)
    (user_name : String) : List Event × Except ApiError Unit :=
  ([Event.bot_notify content channel_id user_name], Except.ok ())

/-- insertAttachment (chat.ts line 362): null passes through; otherwise assign
a fresh generated id, default absent width and height to null, persist the
row.  The id is drawn from the nonce counter (modelling createId). -/
def attachmentId (n : Nat) : String := "att" ++ toString n

def insertAttachment (db : DB) (attachment : Option UploadAttachment) :
    DB × Option AttachmentRow :=
  match attachment with
  | none => (db, none)
  | some a =>
      let row : AttachmentRow :=
        { id := attachmentId db.nextAttachmentNonce
          name := a.name
          url := a.url
          media := a.media
          width := a.width
          height := a.height }
      ({ db with
          attachments := db.attachments ++ [row]
          nextAttachmentNonce := db.nextAttachmentNonce + 1 }, some row)

/-- The hydrated message returned by send: the message row joined with the
author profile (inner join) and, left-joined, the reply snapshot (parent
content and parent author profile). -/
structure SentHydrated extends MessageRow where
  reply_message : Option String
  reply_user : Option UserRow
  author : UserRow
deriving DecidableEq, Repr

/-- A hydrated row of the messages query: the message row with left-joined
author profile, attachment, and reply snapshot. -/
structure ListHydrated extends MessageRow where
  author : Option UserRow
  attachment : Option AttachmentRow
  reply_message : Option String
  reply_user : Option UserRow
deriving DecidableEq, Repr

/-- Left join of the parent message content along reply_id
(reply_message alias in the source). -/
def replyContent (db : DB) (m : MessageRow) : Option String :=
  m.reply_id.bind fun rid =>
    (db.messages.find? fun p => decide (p.id = rid)).map (·.content)

/-- Left join of the parent message author profile along reply_id then
author_id (reply_user alias in the source). -/
def replyAuthor (db : DB) (m : MessageRow) : Option UserRow :=
  m.reply_id.bind fun rid =>
    (db.messages.find? fun p => decide (p.id = rid)).bind fun p =>
      db.users.find? fun u => decide (u.id = p.author_id)

/-- The select in send (chat.ts lines 73-91): rows with the given message id,
inner-joined with the author row, left-joined with the reply snapshot.  The
inner join drops the row when no author row exists. -/
def hydrateSent (db : DB) (message_id : Nat) : List SentHydrated :=
  (db.messages.filter fun m => decide (m.id = message_id)).filterMap fun m =>
    (db.users.find? fun u => decide (u.id = m.author_id)).map fun u =>
      { toMessageRow := m
        reply_message := replyContent db m
        reply_user := replyAuthor db m
        author := u }

/-- Row hydration of the messages query (chat.ts lines 171-203): author,
attachment and reply snapshot are all left joins, so hydration is total. -/
def hydrateListRow (db : DB) (m : MessageRow) : ListHydrated :=
  { toMessageRow := m
    author := db.users.find? fun u => decide (u.id = m.author_id)
    attachment := m.attachment_id.bind fun aid =>
      db.attachments.find? fun a => decide (a.id = aid)
    reply_message := replyContent db m
    reply_user := replyAuthor db m }

/-- The ordering used by orderBy desc(timestamp): a comes before b when the
timestamp of b is at most the timestamp of a. -/
def newestFirst (a b : MessageRow) : Prop := b.timestamp ≤ a.timestamp

instance : DecidableRel newestFirst := fun a b => Nat.decLe b.timestamp a.timestamp

instance : IsTotal MessageRow newestFirst :=
  ⟨fun a b => Nat.le_total b.timestamp a.timestamp⟩

instance : IsTrans MessageRow newestFirst :=
  ⟨fun _ _ _ hab hbc => Nat.le_trans hbc hab⟩

/-- Cursor type of the messages query, defaulting to before at parse time. -/
inductive CursorType where
  | after
  | before
deriving DecidableEq, Repr

/-- Input of the messages query after zod parsing (count defaulted to 50,
cursorType defaulted to before). -/
structure MessagesInput where
  channelId : String
  count : Nat
  cursorType : CursorType
  cursor : Option Nat
deriving DecidableEq, Repr

/-- The cursor conditions of the messages query: gt when cursorType is after
and a cursor is present, lt when cursorType is before and a cursor is present,
no condition otherwise. -/
def cursorOk (ct : CursorType) (cursor : Option Nat) (m : MessageRow) : Bool :=
  match cursor, ct with
  | none, _ => true
  | some c, .after => decide (c < m.timestamp)
  | some c, .before => decide (m.timestamp < c)

/-- The where clause of the messages query: channel match and cursor
condition. -/
def pageFilter (db : DB) (input : MessagesInput) : List MessageRow :=
  db.messages.filter fun m =>
    decide (m.channel_id = input.channelId) &&
      cursorOk input.cursorType input.cursor m

/-- The unhydrated result page of the messages query: filtered rows ordered
newest-first, limited to min(count, 50). -/
def page (db : DB) (input : MessagesInput) : List MessageRow :=
  (List.insertionSort newestFirst (pageFilter db input)).take (min input.count 50)

def countTooLargeMsg : String := "count out of range"

/-- The messages query (chat.ts lines 155-206): permission check, then the
filtered, ordered, limited, hydrated page.  zod rejects count above 50. -/
def messagesQuery (db : DB) (userId : String) (input : MessagesInput) :
    Except ApiError (List ListHydrated) :=
  if input.count > 50 then Except.error ⟨.BAD_REQUEST, countTooLargeMsg⟩
  else
    match checkChannelPermissions db input.channelId userId with
    | Except.error e => Except.error e
    | Except.ok _ => Except.ok ((page db input).map (hydrateListRow db))

/-- Input of send after zod parsing. -/
structure SendInput where
  channelId : String
  content : String
  attachment : Option UploadAttachment
  reply : Option Nat
  nonce : Option Nat
deriving DecidableEq, Repr

/-- The value returned by a successful send: the hydrated message spread with
the bound attachment, the is_new_dm marker and the echoed nonce. -/
structure SendResp where
  message : SentHydrated
  attachment : Option AttachmentRow
  is_new_dm : Bool
  nonce : Option Nat
deriving DecidableEq, Repr

def triggerToken : String := "@Shark"

/-- Prefix test on character lists. -/
def charListStarts : List Char → List Char → Bool
  | _, [] => true
  | [], _ :: _ => false
  | c :: cs, d :: ds => decide (c = d) && charListStarts cs ds

/-- The bot-mention trigger test (String.prototype.startsWith in the source),
defined over the underlying character lists so that it evaluates inside the
kernel. -/
def strStartsWith (s pre : String) : Bool :=
  charListStarts s.data pre.data

/-- The attachment record bound by step 1 of the send transaction. -/
abbrev boundAttachment (db : DB) (input : SendInput) : Option AttachmentRow :=
  (insertAttachment db input.attachment).2

/-- The message row inserted by step 2 of the send transaction: the assigned
identifier is the next store counter value (the attachment insert does not
advance the message counter). -/
abbrev newMessageRow (db : DB) (userId : String) (tNow : Nat)
    (input : SendInput) : MessageRow :=
  { id := db.nextMessageId
    author_id := userId
    content := input.content
    channel_id := input.channelId
    attachment_id := (boundAttachment db input).map (·.id)
    reply_id := input.reply
    timestamp := tNow }

/-- The database state after steps 1-2 of the send transaction: attachment
row bound, message row appended, message counter advanced. -/
abbrev dbMid (db : DB) (userId : String) (tNow : Nat) (input : SendInput) : DB :=
  let db1 := (insertAttachment db input.attachment).1
  { db1 with
      messages := db1.messages ++ [newMessageRow db userId tNow input]
      nextMessageId := db1.nextMessageId + 1 }

/-- The transaction body of send (chat.ts lines 56-126): bind the attachment,
insert the message row, re-read it hydrated (requireOne), update the channel
last-message pointer, and for a DM conditionally flip the open flag, the
affected-row count deciding is_new_dm.  An error yields a rollback: the caller
keeps the original state. -/
def sendTransaction (db : DB) (userId : String) (tNow : Nat) (input : SendInput)
    (perm : PermInfo) :
    Except ApiError (DB × SentHydrated × Option AttachmentRow × Bool) :=
  let attachment := boundAttachment db input
  let db2 := dbMid db userId tNow input
  let message_id := db.nextMessageId
  match requireOne (hydrateSent db2 message_id) with
  | Except.error e => Except.error e
  | Except.ok message =>
    let db3 := { db2 with
        messageChannels := db2.messageChannels.map fun r =>
          if r.id = message.channel_id then
            { r with last_message_id := some message.id }
          else r }
    match perm with
    | .dm _ =>
        let rowsAffected :=
          (db3.directMessageInfos.filter fun r =>
            decide (r.channel_id = input.channelId) && !r.openFlag).length
        let db4 := { db3 with
            directMessageInfos := db3.directMessageInfos.map fun r =>
              if r.channel_id = input.channelId ∧ r.openFlag = false then
                { r with openFlag := true }
              else r }
        Except.ok (db4, message, attachment, rowsAffected != 0)
    | .group _ => Except.ok (db3, message, attachment, false)

/-- The send procedure (chat.ts lines 34-154): zod refine (content non-empty
or attachment present), permission check, the transaction, then post-commit
publishes: open_dm when a DM-open transition occurred, message_sent, the
last-read advance of the sender, and the bot-mention notifier when content
starts with the trigger token. -/
def send (db : DB) (userId : String) (tNow : Nat) (input : SendInput)
    (notifierInnerFails : Bool) : DB × List Event × Except ApiError SendResp :=
  if input.content.length = 0 ∧ input.attachment = none then
    (db, [], Except.error ⟨.BAD_REQUEST, emptyMessageMsg⟩)
  else
    match checkChannelPermissions db input.channelId userId with
    | Except.error e => (db, [], Except.error e)
    | Except.ok perm =>
      match sendTransaction db userId tNow input perm with
      | Except.error e => (db, [], Except.error e)
      | Except.ok (db4, message, attachment, is_new_dm) =>
        let openEvents : List Event :=
          match perm with
          | .dm data =>
              if is_new_dm then
                [Event.open_dm data.to_user_id data.channel_id message.author.id]
              else []
          | .group _ => []
        let db5 := setLastRead db4 input.channelId userId message.timestamp
        let botEvents :=
          if strStartsWith input.content triggerToken then
            (onReceiveMessage notifierInnerFails input.content input.channelId
              message.author.name).1
          else []
        (db5,
         openEvents ++ [Event.message_sent input.channelId message.id] ++ botEvents,
         Except.ok
           { message := message
             attachment := attachment
             is_new_dm := is_new_dm
             nonce := input.nonce })

/-- Input of update after zod parsing. -/
structure UpdateInput where
  messageId : Nat
  channelId : String
  content : String
deriving DecidableEq, Repr

/-- The where clause of update (chat.ts lines 221-227): id, author and channel
must all match. -/
def matchesUpdate (userId : String) (input : UpdateInput) (m : MessageRow) : Bool :=
  decide (m.id = input.messageId) && decide (m.author_id = userId) &&
    decide (m.channel_id = input.channelId)

/-- The update procedure (chat.ts lines 207-240): set the content on the rows
matched by (id, author, channel); zero affected rows raise the single conflated
denial error; on success publish message_updated. -/
def update (db : DB) (userId : String) (input : UpdateInput) :
    DB × List Event × Except ApiError Unit :=
  let rowsAffected := (db.messages.filter (matchesUpdate userId input)).length
  if rowsAffected = 0 then
    (db, [], Except.error ⟨.BAD_REQUEST, updateDeniedMsg⟩)
  else
    ({ db with
        messages := db.messages.map fun m =>
          if matchesUpdate userId input m then { m with content := input.content }
          else m },
     [Event.message_updated input.channelId input.messageId input.content],
     Except.ok ())

/-- checkDeleteMessage (chat.ts lines 317-352): resolve the message first
(NotFound when absent); the author may delete; otherwise the group-owner
check runs a select on the groups table whose where clause is commented out
in the source, so it reads the first row of the whole table. -/
def checkDeleteMessage (db : DB) (messageId : Nat) (user : String) :
    Except ApiError String :=
  match (db.messages.filter fun m => decide (m.id = messageId)).head? with
  | none => Except.error ⟨.NOT_FOUND, messageNotFoundMsg⟩
  | some message =>
    if message.author_id = user then Except.ok message.channel_id
    else
      let group_rows := db.groups.take 1
      match group_rows.head? with
      | some g =>
          if g.owner_id = user then Except.ok message.channel_id
          else Except.error ⟨.BAD_REQUEST, deleteDeniedMsg⟩
      | none => Except.error ⟨.BAD_REQUEST, deleteDeniedMsg⟩

/-- The delete procedure (chat.ts lines 241-258): permission check via
checkDeleteMessage, then delete the row and publish message_deleted. -/
def delete (db : DB) (userId : String) (messageId : Nat) :
    DB × List Event × Except ApiError Unit :=
  match checkDeleteMessage db messageId userId with
  | Except.error e => (db, [], Except.error e)
  | Except.ok channel_id =>
    ({ db with messages := db.messages.filter fun m => !decide (m.id = messageId) },
     [Event.message_deleted channel_id messageId],
     Except.ok ())

/-- The read procedure (chat.ts lines 259-267): advance the last-read cursor
of the caller to now. -/
def read (db : DB) (userId : String) (channelId : String) (tNow : Nat) : DB :=
  setLastRead db channelId userId tNow

/-- The checkout procedure (chat.ts lines 268-284): read the old last-read
cursor, advance it to now, return the old value. -/
def checkout (db : DB) (userId : String) (channelId : String) (tNow : Nat) :
    DB × Option Nat :=
  let old := getLastRead db channelId userId
  (setLastRead db channelId userId tNow, old)

/-- The type procedure (chat.ts lines 285-307): look up the caller profile,
BAD_REQUEST when absent, otherwise publish a typing event. -/
def typing (db : DB) (userId : String) (channelId : String) :
    DB × List Event × Except ApiError Unit :=
  match db.users.find? fun u => decide (u.id = userId) with
  | none => (db, [], Except.error ⟨.BAD_REQUEST, userNotFoundMsg⟩)
  | some _ => (db, [Event.typing channelId userId], Except.ok ())

/-- One request to the router, for traces of concurrent-free interleavings. -/
inductive Op where
  | sendOp (userId : String) (tNow : Nat) (input : SendInput)
      (notifierInnerFails : Bool)
  | messagesOp (userId : String) (input : MessagesInput)
  | updateOp (userId : String) (input : UpdateInput)
  | deleteOp (userId : String) (messageId : Nat)
  | readOp (userId : String) (channelId : String) (tNow : Nat)
  | checkoutOp (userId : String) (channelId : String) (tNow : Nat)
  | typingOp (userId : String) (channelId : String)
deriving DecidableEq, Repr

/-- The state transition and published events of one request. -/
def step (db : DB) (op : Op) : DB × List Event :=
  match op with
  | .sendOp u t inp f => let r := send db u t inp f; (r.1, r.2.1)
  | .messagesOp _ _ => (db, [])
  | .updateOp u inp => let r := update db u inp; (r.1, r.2.1)
  | .deleteOp u mid => let r := delete db u mid; (r.1, r.2.1)
  | .readOp u c t => (read db u c t, [])
  | .checkoutOp u c t => ((checkout db u c t).1, [])
  | .typingOp u c => let r := typing db u c; (r.1, r.2.1)

/-- A trace of requests: the final state and all events published, in order. -/
def run (db : DB) (ops : List Op) : DB × List Event :=
  match ops with
  | [] => (db, [])
  | op :: rest =>
      let s := step db op
      let r := run s.1 rest
      (r.1, s.2 ++ r.2)

/-- The channel last-message pointer. -/
def lastMessagePointer (db : DB) (channelId : String) : Option Nat :=
  (db.messageChannels.find? fun r => r.id = channelId).bind (·.last_message_id)

/-- All directMessageInfos rows of channel c have the open flag set. -/
def dmAllOpen (db : DB) (c : String) : Bool :=
  db.directMessageInfos.all fun r => !decide (r.channel_id = c) || r.openFlag

/-- Does the event publish open_dm for channel c. -/
def isOpenDmFor (c : String) (e : Event) : Bool :=
  match e with
  | .open_dm _ cid _ => decide (cid = c)
  | _ => false

/-- The number of open_dm events for channel c in an event list. -/
def countOpenDm (evs : List Event) (c : String) : Nat :=
  (evs.filter (isOpenDmFor c)).length

lemma insertAttachment_users (db : DB) (a : Option UploadAttachment) :
    (insertAttachment db a).1.users = db.users := by
  cases a <;> rfl

lemma insertAttachment_messages (db : DB) (a : Option UploadAttachment) :
    (insertAttachment db a).1.messages = db.messages := by
  cases a <;> rfl

lemma insertAttachment_messageChannels (db : DB) (a : Option UploadAttachment) :
    (insertAttachment db a).1.messageChannels = db.messageChannels := by
  cases a <;> rfl

lemma insertAttachment_dmInfos (db : DB) (a : Option UploadAttachment) :
    (insertAttachment db a).1.directMessageInfos = db.directMessageInfos := by
  cases a <;> rfl

lemma insertAttachment_nextMessageId (db : DB) (a : Option UploadAttachment) :
    (insertAttachment db a).1.nextMessageId = db.nextMessageId := by
  cases a <;> rfl

lemma insertAttachment_attachments (db : DB) (a : Option UploadAttachment) :
    (insertAttachment db a).1.attachments =
      db.attachments ++ (insertAttachment db a).2.toList := by
  cases a <;> simp [insertAttachment]

lemma insertAttachment_isSome (db : DB) (a : Option UploadAttachment) :
    (insertAttachment db a).2 = none ↔ a = none := by
  cases a <;> simp [insertAttachment]

lemma requireOne_ok_iff {α : Type} (l : List α) (x : α) :
    requireOne l = Except.ok x ↔ l = [x] := by
  match l with
  | [] => simp [requireOne]
  | [a] => simp [requireOne]
  | a :: b :: t => simp [requireOne]

lemma setLastRead_messages (db : DB) (c u : String) (t : Nat) :
    (setLastRead db c u t).messages = db.messages := rfl

lemma setLastRead_attachments (db : DB) (c u : String) (t : Nat) :
    (setLastRead db c u t).attachments = db.attachments := rfl

lemma setLastRead_messageChannels (db : DB) (c u : String) (t : Nat) :
    (setLastRead db c u t).messageChannels = db.messageChannels := rfl

lemma setLastRead_dmInfos (db : DB) (c u : String) (t : Nat) :
    (setLastRead db c u t).directMessageInfos = db.directMessageInfos := rfl

/-- The hydrated select of send evaluates to the single hydration of the
freshly appended row when ids are fresh and the author row exists. -/
lemma hydrateSent_snoc (db2 : DB) (nid : Nat) (pre : List MessageRow)
    (row : MessageRow) (author : UserRow)
    (hmsgs : db2.messages = pre ++ [row])
    (hfresh : ∀ m ∈ pre, ¬(m.id = nid))
    (hrow : row.id = nid)
    (hauthor : db2.users.find? (fun u => decide (u.id = row.author_id)) = some author) :
    hydrateSent db2 nid =
      [{ toMessageRow := row
         reply_message := replyContent db2 row
         reply_user := replyAuthor db2 row
         author := author }] := by
  unfold hydrateSent
  rw [hmsgs, List.filter_append]
  have h1 : pre.filter (fun m => decide (m.id = nid)) = [] := by
    rw [List.filter_eq_nil_iff]
    intro m hm
    simpa using hfresh m hm
  have h2 : List.filter (fun m => decide (m.id = nid)) [row] = [row] := by
    simp [hrow]
  rw [h1, h2, List.nil_append]
  simp [List.filterMap, hauthor]

/-- Case analysis of the send procedure: either it fails, leaving the state
unchanged and publishing nothing, or the permission check and transaction
succeeded and the result has the canonical committed shape. -/
lemma send_cases (db : DB) (u : String) (t : Nat) (inp : SendInput) (f : Bool) :
    ((send db u t inp f).1 = db ∧ (send db u t inp f).2.1 = [] ∧
      ∃ e, (send db u t inp f).2.2 = Except.error e)
    ∨ ∃ perm db4 message attachment is_new_dm,
        checkChannelPermissions db inp.channelId u = Except.ok perm ∧
        sendTransaction db u t inp perm =
          Except.ok (db4, message, attachment, is_new_dm) ∧
        send db u t inp f =
          (setLastRead db4 inp.channelId u message.timestamp,
           (match perm with
            | PermInfo.dm data =>
                if is_new_dm then
                  [Event.open_dm data.to_user_id data.channel_id message.author.id]
                else []
            | PermInfo.group _ => []) ++
             [Event.message_sent inp.channelId message.id] ++
             (if strStartsWith inp.content triggerToken then
               [Event.bot_notify inp.content inp.channelId message.author.name]
              else []),
           Except.ok { message := message, attachment := attachment,
                       is_new_dm := is_new_dm, nonce := inp.nonce }) := by
  by_cases hv : inp.content.length = 0 ∧ inp.attachment = none
  · have hs : send db u t inp f = (db, [], Except.error ⟨.BAD_REQUEST, emptyMessageMsg⟩) := by
      simp only [send, if_pos hv]
    exact Or.inl ⟨by rw [hs], by rw [hs], _, by rw [hs]⟩
  · cases hp : checkChannelPermissions db inp.channelId u with
    | error e =>
        have hs : send db u t inp f = (db, [], Except.error e) := by
          simp only [send, if_neg hv, hp]
        exact Or.inl ⟨by rw [hs], by rw [hs], e, by rw [hs]⟩
    | ok perm =>
      cases ht : sendTransaction db u t inp perm with
      | error e =>
          have hs : send db u t inp f = (db, [], Except.error e) := by
            simp only [send, if_neg hv, hp, ht]
          exact Or.inl ⟨by rw [hs], by rw [hs], e, by rw [hs]⟩
      | ok res =>
        obtain ⟨db4, message, attachment, is_new_dm⟩ := res
        refine Or.inr ⟨perm, db4, message, attachment, is_new_dm, ?_, ?_, ?_⟩
        · rfl
        · exact ht
        · cases perm with
          | dm data => simp only [send, if_neg hv, hp, ht, onReceiveMessage]
          | group g => simp only [send, if_neg hv, hp, ht, onReceiveMessage]

/-- The hydrated message a successful send returns, in canonical form. -/
abbrev sentMsgOf (db : DB) (userId : String) (tNow : Nat) (input : SendInput)
    (author : UserRow) : SentHydrated :=
  { toMessageRow := newMessageRow db userId tNow input
    reply_message :=
      replyContent (dbMid db userId tNow input) (newMessageRow db userId tNow input)
    reply_user :=
      replyAuthor (dbMid db userId tNow input) (newMessageRow db userId tNow input)
    author := author }

/-- Whether this send causes the DM-open transition: some row of the channel
still had the open flag unset. -/
abbrev isNewDm (db : DB) (input : SendInput) (perm : PermInfo) : Bool :=
  match perm with
  | .dm _ =>
      ((db.directMessageInfos.filter fun r =>
          decide (r.channel_id = input.channelId) && !r.openFlag).length) != 0
  | .group _ => false

/-- The committed database state of a successful send transaction. -/
abbrev dbAfterTx (db : DB) (userId : String) (tNow : Nat) (input : SendInput)
    (perm : PermInfo) : DB :=
  let mid := dbMid db userId tNow input
  let db3 := { mid with
      messageChannels := mid.messageChannels.map fun r =>
        if r.id = input.channelId then
          { r with last_message_id := some db.nextMessageId }
        else r }
  match perm with
  | .dm _ => { db3 with
      directMessageInfos := db3.directMessageInfos.map fun r =>
        if r.channel_id = input.channelId ∧ r.openFlag = false then
          { r with openFlag := true }
        else r }
  | .group _ => db3

/-- A successful send transaction: with fresh message ids and an existing
author row the transaction commits with the canonical result. -/
lemma sendTransaction_ok_eq (db : DB) (userId : String) (tNow : Nat)
    (input : SendInput) (perm : PermInfo) (author : UserRow)
    (hfresh : ∀ m ∈ db.messages, ¬(m.id = db.nextMessageId))
    (hauthor : db.users.find? (fun u => decide (u.id = userId)) = some author) :
    sendTransaction db userId tNow input perm =
      Except.ok (dbAfterTx db userId tNow input perm,
                 sentMsgOf db userId tNow input author,
                 boundAttachment db input,
                 isNewDm db input perm) := by
  have hhyd : hydrateSent (dbMid db userId tNow input) db.nextMessageId =
      [sentMsgOf db userId tNow input author] := by
    refine hydrateSent_snoc _ _ ((insertAttachment db input.attachment).1.messages)
      (newMessageRow db userId tNow input) author ?_ ?_ ?_ ?_
    · rfl
    · rw [insertAttachment_messages]
      exact hfresh
    · rfl
    · show (dbMid db userId tNow input).users.find? _ = some author
      have hu : (dbMid db userId tNow input).users = db.users := by
        simp [dbMid, insertAttachment_users]
      rw [hu]
      exact hauthor
  simp only [sendTransaction]
  rw [hhyd]
  simp only [requireOne]
  cases perm with
  | dm d => simp [dbAfterTx, isNewDm, insertAttachment_dmInfos]
  | group g => simp [dbAfterTx]

/-- A successful send end to end, in canonical form: committed state plus the
post-commit event sequence. -/
lemma send_ok_eq (db : DB) (u : String) (tNow : Nat) (input : SendInput)
    (f : Bool) (perm : PermInfo) (author : UserRow)
    (hvalid : ¬(input.content.length = 0 ∧ input.attachment = none))
    (hperm : checkChannelPermissions db input.channelId u = Except.ok perm)
    (hfresh : ∀ m ∈ db.messages, ¬(m.id = db.nextMessageId))
    (hauthor : db.users.find? (fun v => decide (v.id = u)) = some author) :
    send db u tNow input f =
      (setLastRead (dbAfterTx db u tNow input perm) input.channelId u tNow,
       (match perm with
        | PermInfo.dm data =>
            if isNewDm db input perm then
              [Event.open_dm data.to_user_id data.channel_id author.id]
            else []
        | PermInfo.group _ => []) ++
         [Event.message_sent input.channelId db.nextMessageId] ++
         (if strStartsWith input.content triggerToken then
            [Event.bot_notify input.content input.channelId author.name]
          else []),
       Except.ok { message := sentMsgOf db u tNow input author,
                   attachment := boundAttachment db input,
                   is_new_dm := isNewDm db input perm,
                   nonce := input.nonce }) := by
  simp only [send, if_neg hvalid, hperm,
    sendTransaction_ok_eq db u tNow input perm author hfresh hauthor,
    onReceiveMessage]
  cases perm <;> rfl

/-- A small concrete database used by witnesses: a group channel g2 owned by
bob with member alice and one message by alice, a group g1 owned by mallory
that happens to be the first row of the groups table, and an unopened DM d1
between alice and bob. -/
def wDB : DB :=
  { users := [⟨"alice", "Alice", none⟩, ⟨"bob", "Bob", none⟩]
    messages := [⟨1, "alice", "hi", "g2", none, none, 5⟩]
    attachments := []
    messageChannels := [⟨"g1", none⟩, ⟨"g2", some 1⟩, ⟨"d1", none⟩]
    directMessageInfos :=
      [⟨"d1", "alice", "bob", false⟩, ⟨"d1", "bob", "alice", false⟩]
    groups := [⟨"g1", "mallory"⟩, ⟨"g2", "bob"⟩]
    members := [("g2", "alice")]
    lastRead := []
    nextMessageId := 2
    nextAttachmentNonce := 0 }

/-- Claim C4: for every send with empty content and no attachment, the call
fails with the BadRequest class of the spec taxonomy, no message row and no
attachment row is persisted (the state is returned unchanged), and no event
is published to any topic. -/
theorem C4_empty_send_rejected (db : DB) (userId : String) (tNow : Nat)
    (input : SendInput) (f : Bool)
    (hc : input.content.length = 0) (ha : input.attachment = none) :
    send db userId tNow input f =
      (db, [], Except.error ⟨.BAD_REQUEST, emptyMessageMsg⟩) ∧
    specClass ⟨.BAD_REQUEST, emptyMessageMsg⟩ = SpecFailure.BadRequest := by
  constructor
  · simp only [send, if_pos (And.intro hc ha)]
  · decide

theorem C4_empty_send_rejected_witness :
    send wDB "alice" 9 ⟨"g2", "", none, none, none⟩ false =
      (wDB, [], Except.error ⟨.BAD_REQUEST, emptyMessageMsg⟩) ∧
    specClass ⟨.BAD_REQUEST, emptyMessageMsg⟩ = SpecFailure.BadRequest :=
  C4_empty_send_rejected wDB "alice" 9 ⟨"g2", "", none, none, none⟩ false
    (by decide) rfl

/-- Claim C2: for every update whose row match on (id, channel, author) is
empty — message absent, wrong channel, or caller not the author — the call
fails with one single error, classified Forbidden by the spec taxonomy, the
state is unchanged and no message_updated event is published. -/
theorem C2_update_zero_rows_forbidden (db : DB) (userId : String)
    (input : UpdateInput)
    (h : ∀ m ∈ db.messages,
      ¬(m.id = input.messageId ∧ m.author_id = userId ∧
        m.channel_id = input.channelId)) :
    update db userId input =
      (db, [], Except.error ⟨.BAD_REQUEST, updateDeniedMsg⟩) ∧
    specClass ⟨.BAD_REQUEST, updateDeniedMsg⟩ = SpecFailure.Forbidden := by
  have hf : db.messages.filter (matchesUpdate userId input) = [] := by
    rw [List.filter_eq_nil_iff]
    intro m hm
    have hne := h m hm
    simp only [matchesUpdate, Bool.and_eq_true, decide_eq_true_eq]
    tauto
  constructor
  · simp [update, hf]
  · decide

theorem C2_update_zero_rows_forbidden_witness :
    update wDB "bob" ⟨1, "g2", "edited"⟩ =
      (wDB, [], Except.error ⟨.BAD_REQUEST, updateDeniedMsg⟩) ∧
    specClass ⟨.BAD_REQUEST, updateDeniedMsg⟩ = SpecFailure.Forbidden :=
  C2_update_zero_rows_forbidden wDB "bob" ⟨1, "g2", "edited"⟩ (by decide)

/-- Claim C8: checkout returns the last-read cursor value that existed before
the call and then stores the current timestamp, which a subsequent get
reflects. -/
theorem C8_checkout_previous_cursor (db : DB) (userId : String)
    (channelId : String) (tNow : Nat) :
    (checkout db userId channelId tNow).2 = getLastRead db channelId userId ∧
    getLastRead (checkout db userId channelId tNow).1 channelId userId =
      some tNow := by
  refine ⟨rfl, ?_⟩
  show getLastRead (setLastRead db channelId userId tNow) channelId userId =
    some tNow
  unfold getLastRead setLastRead
  rw [List.find?_cons_of_pos]
  · rfl
  · simp

/-- Claim C1 (refuting evaluation): mallory is neither the author of message 1
nor the owner of its owning group channel g2, yet delete succeeds for mallory
and removes the row, because the group-owner check reads the first row of the
whole groups table (the where clause is commented out in the source) and that
row is the unrelated group g1 owned by mallory.  Conversely bob, the owner of g2, is
denied with the Forbidden-class error and the row stays. -/
theorem C1_delete_authorization_bug :
    (delete wDB "mallory" 1).2.2 = Except.ok () ∧
    (delete wDB "mallory" 1).1.messages = [] ∧
    (delete wDB "bob" 1).2.2 =
      Except.error ⟨.BAD_REQUEST, deleteDeniedMsg⟩ ∧
    specClass ⟨.BAD_REQUEST, deleteDeniedMsg⟩ = SpecFailure.Forbidden ∧
    (delete wDB "bob" 1).1 = wDB := by
  decide

/-- Is the outcome a success. -/
def isOkB {α : Type} : Except ApiError α → Bool
  | Except.ok _ => true
  | Except.error _ => false

/-- Claim C3: on a successful send whose content matches the bot-mention
trigger, the notifier is invoked with the content, the channel id and the
author name, and an internal failure of the notifier changes nothing about
the send result: the caller still receives the hydrated message response. -/
theorem C3_bot_notifier_fire_and_forget (db : DB) (userId : String) (tNow : Nat)
    (input : SendInput) (fails : Bool)
    (hTrig : strStartsWith input.content triggerToken = true)
    (hOk : isOkB (send db userId tNow input false).2.2 = true) :
    send db userId tNow input fails = send db userId tNow input false ∧
    ∃ resp, (send db userId tNow input false).2.2 = Except.ok resp ∧
      Event.bot_notify input.content input.channelId resp.message.author.name ∈
        (send db userId tNow input false).2.1 := by
  refine ⟨rfl, ?_⟩
  rcases send_cases db userId tNow input false with
    ⟨hdb, hevs, e, he⟩ | ⟨perm, db4, message, attachment, is_new_dm, hp, ht, hs⟩
  · rw [he] at hOk
    simp [isOkB] at hOk
  · refine ⟨{ message := message, attachment := attachment,
              is_new_dm := is_new_dm, nonce := input.nonce }, ?_, ?_⟩
    · rw [hs]
    · rw [hs]
      simp [hTrig]

def c3Input : SendInput := ⟨"g2", "@Shark hello", none, none, none⟩

theorem C3_bot_notifier_fire_and_forget_witness :
    send wDB "alice" 7 c3Input true = send wDB "alice" 7 c3Input false ∧
    ∃ resp, (send wDB "alice" 7 c3Input false).2.2 = Except.ok resp ∧
      Event.bot_notify c3Input.content c3Input.channelId
          resp.message.author.name ∈
        (send wDB "alice" 7 c3Input false).2.1 :=
  C3_bot_notifier_fire_and_forget wDB "alice" 7 c3Input true (by decide)
    (by decide)

/-- A successful permission check implies the channel summary row exists. -/
lemma checkCP_channel_exists (db : DB) (c u : String) (perm : PermInfo)
    (hp : checkChannelPermissions db c u = Except.ok perm) :
    (db.messageChannels.find? fun r => decide (r.id = c)).isSome = true := by
  cases hfind : db.messageChannels.find? fun r => decide (r.id = c) with
  | some r => rfl
  | none =>
      exfalso
      have hn : (db.messageChannels.find? fun r => decide (r.id = c)).isNone = true := by
        rw [hfind]
        rfl
      simp only [checkChannelPermissions, if_pos hn] at hp
      exact Except.noConfusion hp

/-- After the conditional pointer update, the channel row found by id carries
the new pointer value. -/
lemma lastMessagePointer_after_set (l : List MessageChannelRow) (c : String)
    (n : Nat) (h : (l.find? fun r => decide (r.id = c)).isSome = true) :
    ((l.map fun r =>
        if r.id = c then { r with last_message_id := some n } else r).find?
          fun r => decide (r.id = c)).bind (fun r => r.last_message_id) =
      some n := by
  induction l with
  | nil => simp at h
  | cons a t ih =>
      by_cases hc : a.id = c
      · have hfa : (if a.id = c then { a with last_message_id := some n } else a) =
            { a with last_message_id := some n } := if_pos hc
        rw [List.map_cons, hfa, List.find?_cons_of_pos]
        · rfl
        · simpa using hc
      · have hfa : (if a.id = c then { a with last_message_id := some n } else a) = a :=
          if_neg hc
        rw [List.map_cons, hfa, List.find?_cons_of_neg _ (by simpa using hc)]
        apply ih
        rw [List.find?_cons_of_neg _ (by simpa using hc)] at h
        exact h

/-- The filtered re-read of the freshly inserted message row is that row
alone when the prior ids are fresh. -/
lemma dbMid_filter_new (db : DB) (u : String) (tNow : Nat) (input : SendInput)
    (hfresh : ∀ x ∈ db.messages, ¬(x.id = db.nextMessageId)) :
    (dbMid db u tNow input).messages.filter
        (fun mm => decide (mm.id = db.nextMessageId)) =
      [newMessageRow db u tNow input] := by
  show ((insertAttachment db input.attachment).1.messages ++
      [newMessageRow db u tNow input]).filter _ = _
  rw [List.filter_append]
  have h1 : (insertAttachment db input.attachment).1.messages.filter
      (fun mm => decide (mm.id = db.nextMessageId)) = [] := by
    rw [insertAttachment_messages, List.filter_eq_nil_iff]
    intro x hx
    simpa using hfresh x hx
  rw [h1, List.nil_append]
  simp

/-- If the hydrated re-read returned a row, the sending author has a user
row. -/
lemma hydrate_author_exists (db : DB) (u : String) (tNow : Nat)
    (input : SendInput) (m : SentHydrated)
    (hfresh : ∀ x ∈ db.messages, ¬(x.id = db.nextMessageId))
    (hl : hydrateSent (dbMid db u tNow input) db.nextMessageId = [m]) :
    ∃ a, db.users.find? (fun v => decide (v.id = u)) = some a := by
  unfold hydrateSent at hl
  rw [dbMid_filter_new db u tNow input hfresh] at hl
  have husers : (dbMid db u tNow input).users = db.users := by
    show (insertAttachment db input.attachment).1.users = db.users
    exact insertAttachment_users db input.attachment
  rw [List.filterMap] at hl
  cases hfind : db.users.find? (fun v => decide (v.id = u)) with
  | none =>
      exfalso
      have : (dbMid db u tNow input).users.find?
          (fun v => decide (v.id = (newMessageRow db u tNow input).author_id)) = none := by
        rw [husers]
        exact hfind
      simp [List.filterMap_cons, this] at hl
  | some a => exact ⟨a, rfl⟩

/-- Inversion of a committed send transaction: the author row exists and the
result components have the canonical form. -/
lemma sendTransaction_ok_inv (db : DB) (u : String) (tNow : Nat)
    (input : SendInput) (perm : PermInfo) (db4 : DB) (message : SentHydrated)
    (attachment : Option AttachmentRow) (bnew : Bool)
    (hfresh : ∀ m ∈ db.messages, ¬(m.id = db.nextMessageId))
    (ht : sendTransaction db u tNow input perm =
      Except.ok (db4, message, attachment, bnew)) :
    ∃ author, db.users.find? (fun v => decide (v.id = u)) = some author ∧
      message = sentMsgOf db u tNow input author ∧
      db4 = dbAfterTx db u tNow input perm ∧
      attachment = boundAttachment db input ∧
      bnew = isNewDm db input perm := by
  cases hq : requireOne (hydrateSent (dbMid db u tNow input) db.nextMessageId) with
  | error e =>
      exfalso
      simp only [sendTransaction] at ht
      rw [hq] at ht
      simp at ht
  | ok m =>
      have hl : hydrateSent (dbMid db u tNow input) db.nextMessageId = [m] :=
        (requireOne_ok_iff _ _).mp hq
      obtain ⟨author, hfind⟩ := hydrate_author_exists db u tNow input m hfresh hl
      have hcan := sendTransaction_ok_eq db u tNow input perm author hfresh hfind
      rw [ht] at hcan
      have hinj := Except.ok.inj hcan
      refine ⟨author, hfind, ?_, ?_, ?_, ?_⟩
      · exact congrArg (fun x => x.2.1) hinj
      · exact congrArg (fun x => x.1) hinj
      · exact congrArg (fun x => x.2.2.1) hinj
      · exact congrArg (fun x => x.2.2.2) hinj

lemma dbAfterTx_messages (db : DB) (u : String) (t : Nat) (inp : SendInput)
    (perm : PermInfo) :
    (dbAfterTx db u t inp perm).messages =
      db.messages ++ [newMessageRow db u t inp] := by
  cases perm <;> simp [dbAfterTx, dbMid, insertAttachment_messages]

lemma dbAfterTx_attachments (db : DB) (u : String) (t : Nat) (inp : SendInput)
    (perm : PermInfo) :
    (dbAfterTx db u t inp perm).attachments =
      db.attachments ++ (boundAttachment db inp).toList := by
  cases perm <;> simp [dbAfterTx, dbMid, boundAttachment, insertAttachment_attachments]

lemma dbAfterTx_messageChannels (db : DB) (u : String) (t : Nat)
    (inp : SendInput) (perm : PermInfo) :
    (dbAfterTx db u t inp perm).messageChannels =
      db.messageChannels.map fun r =>
        if r.id = inp.channelId then { r with last_message_id := some db.nextMessageId }
        else r := by
  cases perm <;> simp [dbAfterTx, dbMid, insertAttachment_messageChannels]

/-- Claim C5: every successful send appends exactly one message row carrying
the freshly assigned id, appends an attachment row exactly when a descriptor
was supplied, and leaves the channel last-message pointer equal to the new
message id; all three effects belong to the one transaction step of the
model. -/
theorem C5_send_atomic_effects (db db1 : DB) (userId : String) (tNow : Nat)
    (input : SendInput) (f : Bool) (evs : List Event) (resp : SendResp)
    (hfresh : ∀ m ∈ db.messages, ¬(m.id = db.nextMessageId))
    (hOk : send db userId tNow input f = (db1, evs, Except.ok resp)) :
    db1.messages = db.messages ++ [resp.message.toMessageRow] ∧
    resp.message.id = db.nextMessageId ∧
    db1.attachments = db.attachments ++ resp.attachment.toList ∧
    (resp.attachment = none ↔ input.attachment = none) ∧
    lastMessagePointer db1 input.channelId = some resp.message.id := by
  rcases send_cases db userId tNow input f with
    ⟨_, _, e, he⟩ | ⟨perm, db4, message, attachment, is_new_dm, hp, ht, hs⟩
  · rw [hOk] at he
    simp at he
  · rw [hOk] at hs
    have hdb1 : db1 = setLastRead db4 input.channelId userId message.timestamp :=
      congrArg (fun x => x.1) hs
    have hresp : resp =
        { message := message, attachment := attachment,
          is_new_dm := is_new_dm, nonce := input.nonce } :=
      Except.ok.inj (congrArg (fun x => x.2.2) hs)
    obtain ⟨author, hfind, hmsg, hdb4, hatt, hbn⟩ :=
      sendTransaction_ok_inv db userId tNow input perm db4 message attachment
        is_new_dm hfresh ht
    subst hdb4
    subst hmsg
    subst hatt
    subst hresp
    subst hdb1
    refine ⟨?_, rfl, ?_, ?_, ?_⟩
    · rw [setLastRead_messages, dbAfterTx_messages]
    · rw [setLastRead_attachments, dbAfterTx_attachments]
    · show boundAttachment db input = none ↔ input.attachment = none
      exact insertAttachment_isSome db input.attachment
    · show ((setLastRead (dbAfterTx db userId tNow input perm) input.channelId
          userId _).messageChannels.find? fun r =>
            decide (r.id = input.channelId)).bind (fun r => r.last_message_id) =
        some (db.nextMessageId)
      rw [setLastRead_messageChannels, dbAfterTx_messageChannels]
      exact lastMessagePointer_after_set db.messageChannels input.channelId
        db.nextMessageId (checkCP_channel_exists db input.channelId userId perm hp)

theorem C5_send_atomic_effects_witness :
    lastMessagePointer (send wDB "alice" 7 c3Input false).1 "g2" = some 2 ∧
    (send wDB "alice" 7 c3Input false).1.messages.length =
      wDB.messages.length + 1 ∧
    (send wDB "alice" 7 c3Input false).1.attachments = wDB.attachments := by
  have h := C5_send_atomic_effects wDB _ "alice" 7 c3Input false _ _
    (by decide) rfl
  refine ⟨h.2.2.2.2, ?_, ?_⟩
  · exact (congrArg List.length h.1).trans (by decide)
  · exact h.2.2.1.trans (by decide)

lemma dbMid_messages (db : DB) (u : String) (t : Nat) (inp : SendInput) :
    (dbMid db u t inp).messages = db.messages ++ [newMessageRow db u t inp] := by
  show (insertAttachment db inp.attachment).1.messages ++ _ = _
  rw [insertAttachment_messages]

lemma hydrateListRow_toMessageRow (db : DB) (m : MessageRow) :
    (hydrateListRow db m).toMessageRow = m := rfl

/-- The messages query succeeds whenever the permission check does, returning
the hydrated page. -/
lemma messagesQuery_ok (db : DB) (u : String) (input : MessagesInput)
    (perm : PermInfo) (hcount : input.count ≤ 50)
    (hperm : checkChannelPermissions db input.channelId u = Except.ok perm) :
    messagesQuery db u input =
      Except.ok ((page db input).map (hydrateListRow db)) := by
  have hng : ¬ input.count > 50 := by omega
  simp only [messagesQuery, if_neg hng, hperm]

/-- Claim C9: a message whose reply_id points to a row that does not exist is
returned with null reply-snapshot fields both by the hydrated send response
and by the messages query, and no error arises from the missing parent. -/
theorem C9_missing_parent_null_snapshot (db : DB) (userId uid2 : String)
    (tNow : Nat) (input : SendInput) (f : Bool) (perm perm2 : PermInfo)
    (author : UserRow) (rid : Nat) (input2 : MessagesInput)
    (hvalid : ¬(input.content.length = 0 ∧ input.attachment = none))
    (hperm : checkChannelPermissions db input.channelId userId = Except.ok perm)
    (hfresh : ∀ m ∈ db.messages, ¬(m.id = db.nextMessageId))
    (hauthor : db.users.find? (fun v => decide (v.id = userId)) = some author)
    (hreply : input.reply = some rid)
    (hmiss : ∀ p ∈ db.messages, ¬(p.id = rid))
    (hnew : ¬(db.nextMessageId = rid))
    (hcount : input2.count ≤ 50)
    (hperm2 : checkChannelPermissions db input2.channelId uid2 = Except.ok perm2) :
    (∃ db1 evs resp, send db userId tNow input f = (db1, evs, Except.ok resp) ∧
       resp.message.reply_message = none ∧ resp.message.reply_user = none) ∧
    (∃ l, messagesQuery db uid2 input2 = Except.ok l ∧
       ∀ h ∈ l, h.reply_id = some rid →
         h.reply_message = none ∧ h.reply_user = none) := by
  have hfind : List.find? (fun p => decide (p.id = rid))
      ((insertAttachment db input.attachment).1.messages ++
        [newMessageRow db userId tNow input]) = none := by
    apply List.find?_eq_none.mpr
    intro x hx
    rw [insertAttachment_messages] at hx
    rcases List.mem_append.mp hx with h1 | h2
    · simpa using hmiss x h1
    · have hx2 : x = newMessageRow db userId tNow input := by simpa using h2
      subst hx2
      simpa using hnew
  constructor
  · refine ⟨_, _, _,
      send_ok_eq db userId tNow input f perm author hvalid hperm hfresh hauthor,
      ?_, ?_⟩
    · show replyContent (dbMid db userId tNow input)
        (newMessageRow db userId tNow input) = none
      simp only [replyContent]
      simp only [show (newMessageRow db userId tNow input).reply_id = input.reply
        from rfl, hreply, Option.some_bind]
      rw [hfind]
      rfl
    · show replyAuthor (dbMid db userId tNow input)
        (newMessageRow db userId tNow input) = none
      simp only [replyAuthor]
      simp only [show (newMessageRow db userId tNow input).reply_id = input.reply
        from rfl, hreply, Option.some_bind]
      rw [hfind]
      rfl
  · refine ⟨_, messagesQuery_ok db uid2 input2 perm2 hcount hperm2, ?_⟩
    intro h hh hrid
    obtain ⟨m, hm, rfl⟩ := List.mem_map.mp hh
    have hmr : m.reply_id = some rid := hrid
    have hfind2 : db.messages.find? (fun p => decide (p.id = rid)) = none := by
      apply List.find?_eq_none.mpr
      intro x hx
      simpa using hmiss x hx
    constructor
    · show replyContent db m = none
      simp only [replyContent]
      rw [hmr]
      simp [hfind2]
    · show replyAuthor db m = none
      simp only [replyAuthor]
      rw [hmr]
      simp [hfind2]

/-- A second witness database: group channel g2 owned by bob, members alice
and ghost; message 2 has an author with no user row; message 3 replies to the
nonexistent message 99. -/
def w2DB : DB :=
  { users := [⟨"alice", "Alice", none⟩, ⟨"bob", "Bob", none⟩]
    messages :=
      [⟨1, "alice", "m1", "g2", none, none, 10⟩,
       ⟨2, "ghost", "m2", "g2", none, none, 20⟩,
       ⟨3, "alice", "m3", "g2", none, some 99, 30⟩,
       ⟨4, "alice", "m4", "g2", none, none, 40⟩]
    attachments := []
    messageChannels := [⟨"g2", some 4⟩]
    directMessageInfos := []
    groups := [⟨"g2", "bob"⟩]
    members := [("g2", "alice"), ("g2", "ghost")]
    lastRead := []
    nextMessageId := 5
    nextAttachmentNonce := 0 }

def c9Input : SendInput := ⟨"g2", "re", none, some 99, none⟩

def fullQuery : MessagesInput := ⟨"g2", 50, CursorType.before, none⟩

theorem C9_missing_parent_null_snapshot_witness :
    (∃ db1 evs resp, send w2DB "alice" 50 c9Input false =
        (db1, evs, Except.ok resp) ∧
       resp.message.reply_message = none ∧ resp.message.reply_user = none) ∧
    (∃ l, messagesQuery w2DB "alice" fullQuery = Except.ok l ∧
       ∀ h ∈ l, h.reply_id = some 99 →
         h.reply_message = none ∧ h.reply_user = none) :=
  C9_missing_parent_null_snapshot w2DB "alice" "alice" 50 c9Input false _ _ _
    99 fullQuery (by decide) rfl (by decide) rfl rfl (by decide) (by decide)
    (by decide) rfl

/-- If the sending author has no user row, the hydrated re-read of send is
empty: the inner join drops the row. -/
lemma hydrateSent_no_author (db : DB) (u : String) (tNow : Nat)
    (input : SendInput)
    (hfresh : ∀ x ∈ db.messages, ¬(x.id = db.nextMessageId))
    (hnone : db.users.find? (fun v => decide (v.id = u)) = none) :
    hydrateSent (dbMid db u tNow input) db.nextMessageId = [] := by
  unfold hydrateSent
  rw [dbMid_filter_new db u tNow input hfresh]
  have hfu : (dbMid db u tNow input).users.find?
      (fun v => decide (v.id = (newMessageRow db u tNow input).author_id)) = none := by
    show (insertAttachment db input.attachment).1.users.find? _ = none
    rw [insertAttachment_users]
    exact hnone
  simp [List.filterMap_cons, hfu]

/-- A send whose author row is absent fails inside the transaction (the
requireOne on the inner-joined re-read), leaving the state unchanged. -/
lemma send_no_author (db : DB) (u : String) (tNow : Nat) (input : SendInput)
    (f : Bool) (perm : PermInfo)
    (hvalid : ¬(input.content.length = 0 ∧ input.attachment = none))
    (hperm : checkChannelPermissions db input.channelId u = Except.ok perm)
    (hfresh : ∀ x ∈ db.messages, ¬(x.id = db.nextMessageId))
    (hnone : db.users.find? (fun v => decide (v.id = u)) = none) :
    send db u tNow input f =
      (db, [], Except.error ⟨.INTERNAL_SERVER_ERROR, requireOneMsg⟩) := by
  have htx : sendTransaction db u tNow input perm =
      Except.error ⟨.INTERNAL_SERVER_ERROR, requireOneMsg⟩ := by
    simp only [sendTransaction]
    rw [hydrateSent_no_author db u tNow input hfresh hnone]
    rfl
  simp only [send, if_neg hvalid, hperm, htx]

/-- Claim C10: the messages query never omits a row whose author record is
absent — the row is returned with a null author (left join) — whereas the
post-insert hydration of send inner-joins the author and fails when the
author row does not exist. -/
theorem C10_author_left_join_vs_inner_join (db : DB) (uid2 sid : String)
    (input2 : MessagesInput) (perm2 perm : PermInfo) (m : MessageRow)
    (tNow : Nat) (input : SendInput) (f : Bool)
    (hcount : input2.count ≤ 50)
    (hperm2 : checkChannelPermissions db input2.channelId uid2 = Except.ok perm2)
    (hpage : m ∈ page db input2)
    (hnoauthor : db.users.find? (fun v => decide (v.id = m.author_id)) = none)
    (hvalid : ¬(input.content.length = 0 ∧ input.attachment = none))
    (hperm : checkChannelPermissions db input.channelId sid = Except.ok perm)
    (hfresh : ∀ p ∈ db.messages, ¬(p.id = db.nextMessageId))
    (hnosender : db.users.find? (fun v => decide (v.id = sid)) = none) :
    (∃ l, messagesQuery db uid2 input2 = Except.ok l ∧
       hydrateListRow db m ∈ l ∧ (hydrateListRow db m).author = none) ∧
    send db sid tNow input f =
      (db, [], Except.error ⟨.INTERNAL_SERVER_ERROR, requireOneMsg⟩) := by
  refine ⟨⟨_, messagesQuery_ok db uid2 input2 perm2 hcount hperm2,
    List.mem_map_of_mem _ hpage, ?_⟩,
    send_no_author db sid tNow input f perm hvalid hperm hfresh hnosender⟩
  show db.users.find? (fun v => decide (v.id = m.author_id)) = none
  exact hnoauthor

def ghostRow : MessageRow := ⟨2, "ghost", "m2", "g2", none, none, 20⟩

theorem C10_author_left_join_vs_inner_join_witness :
    (∃ l, messagesQuery w2DB "alice" fullQuery = Except.ok l ∧
       hydrateListRow w2DB ghostRow ∈ l ∧
       (hydrateListRow w2DB ghostRow).author = none) ∧
    send w2DB "ghost" 50 ⟨"g2", "x", none, none, none⟩ false =
      (w2DB, [], Except.error ⟨.INTERNAL_SERVER_ERROR, requireOneMsg⟩) :=
  C10_author_left_join_vs_inner_join w2DB "alice" "ghost" fullQuery _ _
    ghostRow 50 ⟨"g2", "x", none, none, none⟩ false (by decide) rfl (by decide)
    rfl (by decide) rfl (by decide) rfl

/-- Claim C7: under the count bound and a passing permission check, the
messages query returns exactly the hydrated page: every returned row belongs
to the channel and satisfies the cursor condition (strictly less than the
cursor for before, strictly greater for after, no condition when absent), the
result is ordered newest-first, holds at most count rows, and every matching
message is either returned or displaced only by count newer-or-equal
messages. -/
theorem C7_pagination_cursor_semantics (db : DB) (userId : String)
    (input : MessagesInput) (perm : PermInfo)
    (hcount : input.count ≤ 50)
    (hperm : checkChannelPermissions db input.channelId userId = Except.ok perm) :
    ∃ l, messagesQuery db userId input = Except.ok l ∧
      l.map (fun h => h.toMessageRow) = page db input ∧
      (∀ h ∈ l, h.channel_id = input.channelId ∧
        cursorOk input.cursorType input.cursor h.toMessageRow = true) ∧
      List.Sorted newestFirst (l.map (fun h => h.toMessageRow)) ∧
      l.length ≤ input.count ∧
      (∀ m ∈ db.messages, m.channel_id = input.channelId →
        cursorOk input.cursorType input.cursor m = true →
        m ∈ l.map (fun h => h.toMessageRow) ∨
          (l.length = input.count ∧ ∀ h ∈ l, m.timestamp ≤ h.timestamp)) := by
  refine ⟨_, messagesQuery_ok db userId input perm hcount hperm, ?_, ?_, ?_, ?_, ?_⟩
  · rw [List.map_map]
    have hid : (fun h : ListHydrated => h.toMessageRow) ∘ hydrateListRow db = id := by
      funext m
      rfl
    rw [hid, List.map_id]
  · intro h hh
    obtain ⟨m, hm, rfl⟩ := List.mem_map.mp hh
    have hm2 : m ∈ pageFilter db input := by
      have hs : m ∈ List.insertionSort newestFirst (pageFilter db input) :=
        (List.take_sublist _ _).subset hm
      exact (List.mem_insertionSort newestFirst).mp hs
    have := List.mem_filter.mp hm2
    constructor
    · have h1 := this.2
      rw [Bool.and_eq_true] at h1
      simpa using h1.1
    · have h1 := this.2
      rw [Bool.and_eq_true] at h1
      exact h1.2
  · rw [List.map_map]
    have hid : (fun h : ListHydrated => h.toMessageRow) ∘ hydrateListRow db = id := by
      funext m
      rfl
    rw [hid, List.map_id]
    exact List.Pairwise.sublist (List.take_sublist _ _)
      (List.sorted_insertionSort newestFirst (pageFilter db input))
  · rw [List.length_map]
    have hlen : (page db input).length ≤ min input.count 50 := by
      show ((List.insertionSort newestFirst (pageFilter db input)).take
          (min input.count 50)).length ≤ min input.count 50
      rw [List.length_take]
      exact Nat.min_le_left _ _
    exact hlen.trans (Nat.min_le_left _ _)
  · intro m hm hch hcur
    have hmf : m ∈ pageFilter db input := by
      rw [pageFilter, List.mem_filter]
      refine ⟨hm, ?_⟩
      rw [Bool.and_eq_true]
      exact ⟨by simpa using hch, hcur⟩
    have hms : m ∈ List.insertionSort newestFirst (pageFilter db input) :=
      (List.mem_insertionSort newestFirst).mpr hmf
    have hmapid : ((page db input).map (hydrateListRow db)).map
        (fun h => h.toMessageRow) = page db input := by
      rw [List.map_map]
      have hid : (fun h : ListHydrated => h.toMessageRow) ∘ hydrateListRow db = id := by
        funext x
        rfl
      rw [hid, List.map_id]
    by_cases hin : m ∈ page db input
    · left
      rw [hmapid]
      exact hin
    · right
      have hdrop : m ∈ (List.insertionSort newestFirst (pageFilter db input)).drop
          (min input.count 50) := by
        have hsplit := List.take_append_drop (min input.count 50)
          (List.insertionSort newestFirst (pageFilter db input))
        rw [← hsplit] at hms
        rcases List.mem_append.mp hms with h1 | h2
        · exact absurd h1 hin
        · exact h2
      have hlt : min input.count 50 <
          (List.insertionSort newestFirst (pageFilter db input)).length := by
        by_contra hge
        push_neg at hge
        rw [List.drop_eq_nil_of_le hge] at hdrop
        simp at hdrop
      constructor
      · rw [List.length_map]
        show ((List.insertionSort newestFirst (pageFilter db input)).take
            (min input.count 50)).length = input.count
        have h1 : min input.count 50 = input.count := Nat.min_eq_left hcount
        rw [List.length_take, h1]
        rw [h1] at hlt
        exact Nat.min_eq_left (Nat.le_of_lt hlt)
      · intro h hh
        have hx : h.toMessageRow ∈ page db input := by
          rw [← hmapid]
          exact List.mem_map_of_mem _ hh
        have hsorted : List.Pairwise newestFirst
            ((List.insertionSort newestFirst (pageFilter db input)).take
                (min input.count 50) ++
              (List.insertionSort newestFirst (pageFilter db input)).drop
                (min input.count 50)) := by
          rw [List.take_append_drop]
          exact List.sorted_insertionSort newestFirst (pageFilter db input)
        exact (List.pairwise_append.mp hsorted).2.2 h.toMessageRow hx m hdrop

def beforeQuery : MessagesInput := ⟨"g2", 2, CursorType.before, some 40⟩

theorem C7_pagination_cursor_semantics_witness :
    ∃ l, messagesQuery w2DB "alice" beforeQuery = Except.ok l ∧
      l.map (fun h => h.toMessageRow) = page w2DB beforeQuery ∧
      (∀ h ∈ l, h.channel_id = beforeQuery.channelId ∧
        cursorOk beforeQuery.cursorType beforeQuery.cursor h.toMessageRow = true) ∧
      List.Sorted newestFirst (l.map (fun h => h.toMessageRow)) ∧
      l.length ≤ beforeQuery.count ∧
      (∀ m ∈ w2DB.messages, m.channel_id = beforeQuery.channelId →
        cursorOk beforeQuery.cursorType beforeQuery.cursor m = true →
        m ∈ l.map (fun h => h.toMessageRow) ∨
          (l.length = beforeQuery.count ∧ ∀ h ∈ l, m.timestamp ≤ h.timestamp)) :=
  C7_pagination_cursor_semantics w2DB "alice" beforeQuery _ (by decide) rfl

lemma dmAllOpen_iff_filter (l : List DirectMessageInfoRow) (c : String) :
    (l.all fun r => !decide (r.channel_id = c) || r.openFlag) = true ↔
      (l.filter fun r => decide (r.channel_id = c) && !r.openFlag) = [] := by
  rw [List.all_eq_true, List.filter_eq_nil_iff]
  constructor
  · intro h r hr
    have := h r hr
    by_cases h1 : r.channel_id = c <;> by_cases h2 : r.openFlag <;> simp_all
  · intro h r hr
    have := h r hr
    by_cases h1 : r.channel_id = c <;> by_cases h2 : r.openFlag <;> simp_all

lemma allOpen_map_self (l : List DirectMessageInfoRow) (cid : String) :
    ((l.map fun r =>
        if r.channel_id = cid ∧ r.openFlag = false then { r with openFlag := true }
        else r).all fun r => !decide (r.channel_id = cid) || r.openFlag) = true := by
  rw [List.all_eq_true]
  intro x hx
  obtain ⟨r, hr, rfl⟩ := List.mem_map.mp hx
  by_cases h1 : r.channel_id = cid <;> by_cases h2 : r.openFlag <;>
    simp [h1, h2]

lemma allOpen_map_other (l : List DirectMessageInfoRow) (cid c : String)
    (hne : ¬(c = cid)) :
    ((l.map fun r =>
        if r.channel_id = cid ∧ r.openFlag = false then { r with openFlag := true }
        else r).all fun r => !decide (r.channel_id = c) || r.openFlag) =
      (l.all fun r => !decide (r.channel_id = c) || r.openFlag) := by
  induction l with
  | nil => rfl
  | cons a t ih =>
      rw [List.map_cons, List.all_cons, List.all_cons, ih]
      congr 1
      by_cases h1 : a.channel_id = cid
      · by_cases h2 : a.openFlag
        · simp [h1, h2]
        · simp [h1, h2]
          exact fun hcc => hne hcc.symm
      · simp [h1]

lemma checkCP_dm_channel (db : DB) (cid u : String) (data : DmData)
    (hp : checkChannelPermissions db cid u = Except.ok (PermInfo.dm data)) :
    data.channel_id = cid := by
  simp only [checkChannelPermissions] at hp
  split at hp
  · exact Except.noConfusion hp
  · split at hp
    · have h2 := Except.ok.inj hp
      have h3 := PermInfo.dm.inj h2
      exact (congrArg DmData.channel_id h3).symm
    · split at hp
      · exact Except.noConfusion hp
      · split at hp
        · split at hp
          · exact PermInfo.noConfusion (Except.ok.inj hp)
          · exact Except.noConfusion hp
        · exact Except.noConfusion hp

lemma update_dmInfos (db : DB) (u : String) (inp : UpdateInput) :
    (update db u inp).1.directMessageInfos = db.directMessageInfos := by
  simp only [update]
  split <;> rfl

lemma update_events_no_open (db : DB) (u : String) (inp : UpdateInput) (c : String) :
    (update db u inp).2.1.any (isOpenDmFor c) = false := by
  simp only [update]
  split <;> rfl

lemma delete_dmInfos (db : DB) (u : String) (mid : Nat) :
    (delete db u mid).1.directMessageInfos = db.directMessageInfos := by
  cases hd : checkDeleteMessage db mid u with
  | error e => simp [delete, hd]
  | ok cidd => simp [delete, hd]

lemma delete_events_no_open (db : DB) (u : String) (mid : Nat) (c : String) :
    (delete db u mid).2.1.any (isOpenDmFor c) = false := by
  cases hd : checkDeleteMessage db mid u with
  | error e => simp [delete, hd]
  | ok cidd => simp [delete, hd, isOpenDmFor]

lemma typing_dmInfos (db : DB) (u c0 : String) :
    (typing db u c0).1.directMessageInfos = db.directMessageInfos := by
  cases hfind : db.users.find? fun v => decide (v.id = u) with
  | none => simp [typing, hfind]
  | some v => simp [typing, hfind]

lemma typing_events_no_open (db : DB) (u c0 : String) (c : String) :
    (typing db u c0).2.1.any (isOpenDmFor c) = false := by
  cases hfind : db.users.find? fun v => decide (v.id = u) with
  | none => simp [typing, hfind]
  | some v => simp [typing, hfind, isOpenDmFor]

lemma sendTransaction_ok_dm_facts (db : DB) (u : String) (t : Nat)
    (inp : SendInput) (perm : PermInfo) (db4 : DB) (message : SentHydrated)
    (attachment : Option AttachmentRow) (bnew : Bool)
    (ht : sendTransaction db u t inp perm =
      Except.ok (db4, message, attachment, bnew)) :
    db4.directMessageInfos =
      (match perm with
       | PermInfo.dm _ => db.directMessageInfos.map fun r =>
           if r.channel_id = inp.channelId ∧ r.openFlag = false then
             { r with openFlag := true }
           else r
       | PermInfo.group _ => db.directMessageInfos) ∧
    bnew = isNewDm db inp perm := by
  cases hq : requireOne (hydrateSent (dbMid db u t inp) db.nextMessageId) with
  | error e =>
      exfalso
      simp only [sendTransaction] at ht
      rw [hq] at ht
      simp at ht
  | ok m =>
      cases perm with
      | dm d =>
          simp only [sendTransaction, hq] at ht
          have h2 := Except.ok.inj ht
          constructor
          · have h3 := (congrArg (fun x => x.1.directMessageInfos) h2).symm
            have h5 : db4.directMessageInfos =
                (insertAttachment db inp.attachment).1.directMessageInfos.map
                  (fun r =>
                    if r.channel_id = inp.channelId ∧ r.openFlag = false then
                      { r with openFlag := true }
                    else r) := h3
            rw [h5, insertAttachment_dmInfos]
          · have h4 := (congrArg (fun x => x.2.2.2) h2).symm
            have h5 : bnew =
                (((insertAttachment db inp.attachment).1.directMessageInfos.filter
                  fun r => decide (r.channel_id = inp.channelId) &&
                    !r.openFlag).length != 0) := h4
            rw [h5, insertAttachment_dmInfos]
      | group g =>
          simp only [sendTransaction, hq] at ht
          have h2 := Except.ok.inj ht
          constructor
          · have h3 := (congrArg (fun x => x.1.directMessageInfos) h2).symm
            have h5 : db4.directMessageInfos =
                (insertAttachment db inp.attachment).1.directMessageInfos := h3
            rw [h5, insertAttachment_dmInfos]
          · exact (congrArg (fun x => x.2.2.2) h2).symm

lemma countOpenDm_append (a b : List Event) (c : String) :
    countOpenDm (a ++ b) c = countOpenDm a c + countOpenDm b c := by
  simp [countOpenDm, List.filter_append]

lemma countOpenDm_zero_of_any (evs : List Event) (c : String)
    (h : evs.any (isOpenDmFor c) = false) : countOpenDm evs c = 0 := by
  rw [countOpenDm, List.length_eq_zero, List.filter_eq_nil_iff]
  intro e he
  rw [List.any_eq_false] at h
  simpa using h e he

lemma any_of_countOpenDm (evs : List Event) (c : String)
    (h : ¬(countOpenDm evs c = 0)) : evs.any (isOpenDmFor c) = true := by
  rw [countOpenDm] at h
  cases hf : evs.filter (isOpenDmFor c) with
  | nil => rw [hf] at h; simp at h
  | cons e t =>
      have he : e ∈ evs.filter (isOpenDmFor c) := by
        rw [hf]
        exact List.mem_cons_self e t
      have hm := List.mem_filter.mp he
      exact List.any_eq_true.mpr ⟨e, hm.1, hm.2⟩

lemma dmAllOpen_congr (db db' : DB) (c : String)
    (h : db'.directMessageInfos = db.directMessageInfos) :
    dmAllOpen db' c = dmAllOpen db c := by
  rw [dmAllOpen, dmAllOpen, h]

/-- The three per-request facts of claim C6 for a request that neither touches
the DM flags nor publishes an open event. -/
lemma step_dm_trivial (db : DB) (res : DB × List Event) (c : String)
    (hinfo : res.1.directMessageInfos = db.directMessageInfos)
    (hev : res.2.any (isOpenDmFor c) = false) :
    (res.2.any (isOpenDmFor c) = true ↔
      (dmAllOpen db c = false ∧ dmAllOpen res.1 c = true)) ∧
    countOpenDm res.2 c ≤ 1 ∧
    (dmAllOpen db c = true → dmAllOpen res.1 c = true ∧
      countOpenDm res.2 c = 0) := by
  have hall : dmAllOpen res.1 c = dmAllOpen db c := dmAllOpen_congr _ _ c hinfo
  have hcz : countOpenDm res.2 c = 0 := countOpenDm_zero_of_any _ _ hev
  refine ⟨?_, ?_, ?_⟩
  · constructor
    · intro h
      rw [hev] at h
      exact absurd h (by simp)
    · rintro ⟨h1, h2⟩
      rw [hall, h1] at h2
      exact absurd h2 (by simp)
  · rw [hcz]
    omega
  · intro h
    rw [hall]
    exact ⟨h, hcz⟩

/-- The per-request facts of claim C6: an open_dm event for channel c is
published by a request exactly when that request flipped the last unset open
flag of c (the false-to-true transition); each request publishes at most one
such event; and once all flags of c are set they stay set and no request
publishes the event again. -/
theorem step_dm (db : DB) (op : Op) (c : String) :
    ((step db op).2.any (isOpenDmFor c) = true ↔
      (dmAllOpen db c = false ∧ dmAllOpen (step db op).1 c = true)) ∧
    countOpenDm (step db op).2 c ≤ 1 ∧
    (dmAllOpen db c = true → dmAllOpen (step db op).1 c = true ∧
      countOpenDm (step db op).2 c = 0) := by
  cases op with
  | messagesOp u inp => exact step_dm_trivial db _ c rfl rfl
  | readOp u ch t0 => exact step_dm_trivial db _ c rfl rfl
  | checkoutOp u ch t0 => exact step_dm_trivial db _ c rfl rfl
  | updateOp u inp =>
      exact step_dm_trivial db _ c (update_dmInfos db u inp)
        (update_events_no_open db u inp c)
  | deleteOp u mid =>
      exact step_dm_trivial db _ c (delete_dmInfos db u mid)
        (delete_events_no_open db u mid c)
  | typingOp u ch =>
      exact step_dm_trivial db _ c (typing_dmInfos db u ch)
        (typing_events_no_open db u ch c)
  | sendOp u t0 inp f =>
      show ((send db u t0 inp f).2.1.any (isOpenDmFor c) = true ↔
          (dmAllOpen db c = false ∧ dmAllOpen (send db u t0 inp f).1 c = true)) ∧
        countOpenDm (send db u t0 inp f).2.1 c ≤ 1 ∧
        (dmAllOpen db c = true → dmAllOpen (send db u t0 inp f).1 c = true ∧
          countOpenDm (send db u t0 inp f).2.1 c = 0)
      rcases send_cases db u t0 inp f with
        ⟨hdb, hevs, e, he⟩ | ⟨perm, db4, message, attachment, bnew, hp, ht, hs⟩
      · refine step_dm_trivial db
          ((send db u t0 inp f).1, (send db u t0 inp f).2.1) c ?_ ?_
        · show (send db u t0 inp f).1.directMessageInfos = db.directMessageInfos
          rw [hdb]
        · show (send db u t0 inp f).2.1.any (isOpenDmFor c) = false
          rw [hevs]
          rfl
      · have hfacts := sendTransaction_ok_dm_facts db u t0 inp perm db4 message
          attachment bnew ht
        cases perm with
        | group g =>
            refine step_dm_trivial db
              ((send db u t0 inp f).1, (send db u t0 inp f).2.1) c ?_ ?_
            · show (send db u t0 inp f).1.directMessageInfos =
                db.directMessageInfos
              rw [hs, setLastRead_dmInfos]
              exact hfacts.1
            · show (send db u t0 inp f).2.1.any (isOpenDmFor c) = false
              rw [hs]
              show (([] ++ [Event.message_sent inp.channelId message.id] ++
                (if strStartsWith inp.content triggerToken = true then
                  [Event.bot_notify inp.content inp.channelId message.author.name]
                 else [])).any (isOpenDmFor c)) = false
              by_cases hb : strStartsWith inp.content triggerToken = true <;>
                simp [hb, isOpenDmFor]
        | dm data =>
            have hchan : data.channel_id = inp.channelId :=
              checkCP_dm_channel db inp.channelId u data hp
            have hinfo : (send db u t0 inp f).1.directMessageInfos =
                db.directMessageInfos.map (fun r =>
                  if r.channel_id = inp.channelId ∧ r.openFlag = false then
                    { r with openFlag := true }
                  else r) := by
              rw [hs, setLastRead_dmInfos]
              exact hfacts.1
            have hbnew : bnew =
                ((db.directMessageInfos.filter fun r =>
                  decide (r.channel_id = inp.channelId) && !r.openFlag).length
                  != 0) := hfacts.2
            have hev : (send db u t0 inp f).2.1.any (isOpenDmFor c) =
                (if bnew then decide (data.channel_id = c) else false) := by
              rw [hs]
              show (((if bnew = true then
                  [Event.open_dm data.to_user_id data.channel_id message.author.id]
                 else []) ++ [Event.message_sent inp.channelId message.id] ++
                (if strStartsWith inp.content triggerToken = true then
                  [Event.bot_notify inp.content inp.channelId message.author.name]
                 else [])).any (isOpenDmFor c)) = _
              cases bnew with
              | true =>
                  by_cases hb : strStartsWith inp.content triggerToken = true <;>
                    simp [hb, isOpenDmFor]
              | false =>
                  by_cases hb : strStartsWith inp.content triggerToken = true <;>
                    simp [hb, isOpenDmFor]
            have hcount : countOpenDm (send db u t0 inp f).2.1 c =
                (if bnew ∧ data.channel_id = c then 1 else 0) := by
              rw [hs]
              show countOpenDm ((if bnew = true then
                  [Event.open_dm data.to_user_id data.channel_id message.author.id]
                 else []) ++ [Event.message_sent inp.channelId message.id] ++
                (if strStartsWith inp.content triggerToken = true then
                  [Event.bot_notify inp.content inp.channelId message.author.name]
                 else [])) c = _
              cases bnew with
              | true =>
                  by_cases hdc : data.channel_id = c <;>
                    by_cases hb : strStartsWith inp.content triggerToken = true <;>
                      simp [hdc, hb, countOpenDm, isOpenDmFor]
              | false =>
                  by_cases hb : strStartsWith inp.content triggerToken = true <;>
                    simp [hb, countOpenDm, isOpenDmFor]
            by_cases hc : c = inp.channelId
            · rw [← hc] at hinfo hbnew hchan
              have hafter : dmAllOpen (send db u t0 inp f).1 c = true := by
                show ((send db u t0 inp f).1.directMessageInfos.all fun r =>
                  !decide (r.channel_id = c) || r.openFlag) = true
                rw [hinfo]
                exact allOpen_map_self db.directMessageInfos c
              have hlhs : (send db u t0 inp f).2.1.any (isOpenDmFor c) = bnew := by
                rw [hev, hchan]
                cases bnew <;> simp
              have hbnew_iff : bnew = true ↔ dmAllOpen db c = false := by
                rw [hbnew]
                simp only [bne_iff_ne, ne_eq]
                constructor
                · intro h
                  by_contra hno
                  rw [Bool.not_eq_false] at hno
                  have hfil :=
                    (dmAllOpen_iff_filter db.directMessageInfos c).mp hno
                  exact h (by rw [hfil]; rfl)
                · intro h hlen
                  have hfil := List.length_eq_zero.mp hlen
                  have hcontra : dmAllOpen db c = true :=
                    (dmAllOpen_iff_filter db.directMessageInfos c).mpr hfil
                  rw [h] at hcontra
                  exact absurd hcontra (by simp)
              refine ⟨?_, ?_, ?_⟩
              · rw [hlhs]
                constructor
                · intro hb
                  exact ⟨hbnew_iff.mp hb, hafter⟩
                · rintro ⟨h1, _⟩
                  exact hbnew_iff.mpr h1
              · rw [hcount]
                split <;> omega
              · intro hall
                have hb : bnew = false := by
                  cases hbn : bnew
                  · rfl
                  · have := hbnew_iff.mp hbn
                    rw [hall] at this
                    exact absurd this (by simp)
                refine ⟨hafter, ?_⟩
                rw [hcount]
                simp [hb]
            · have hafter_eq : dmAllOpen (send db u t0 inp f).1 c =
                  dmAllOpen db c := by
                show ((send db u t0 inp f).1.directMessageInfos.all fun r =>
                  !decide (r.channel_id = c) || r.openFlag) = _
                rw [hinfo]
                exact allOpen_map_other db.directMessageInfos inp.channelId c hc
              have hlhs : (send db u t0 inp f).2.1.any (isOpenDmFor c) = false := by
                rw [hev]
                cases bnew with
                | false => rfl
                | true =>
                    simp [hchan]
                    exact fun h => hc h.symm
              refine ⟨?_, ?_, ?_⟩
              · constructor
                · intro h
                  rw [hlhs] at h
                  exact absurd h (by simp)
                · rintro ⟨h1, h2⟩
                  rw [hafter_eq, h1] at h2
                  exact absurd h2 (by simp)
              · rw [hcount]
                split <;> omega
              · intro hall
                rw [hafter_eq]
                refine ⟨hall, ?_⟩
                rw [hcount, if_neg]
                exact fun hcon => hc ((hchan ▸ hcon.2).symm)

/-- Once every open flag of channel c is set, any trace keeps them set and
publishes no open_dm event for c. -/
lemma run_preserves_open (c : String) (ops : List Op) : ∀ db : DB,
    dmAllOpen db c = true →
    dmAllOpen (run db ops).1 c = true ∧ countOpenDm (run db ops).2 c = 0 := by
  induction ops with
  | nil => exact fun db h => ⟨h, rfl⟩
  | cons op rest ih =>
      intro db h
      have hstep := (step_dm db op c).2.2 h
      have hrest := ih (step db op).1 hstep.1
      constructor
      · exact hrest.1
      · show countOpenDm ((step db op).2 ++ (run (step db op).1 rest).2) c = 0
        rw [countOpenDm_append]
        omega

/-- Any trace publishes the open_dm event for channel c at most once. -/
lemma run_count_le_one (c : String) (ops : List Op) : ∀ db : DB,
    countOpenDm (run db ops).2 c ≤ 1 := by
  induction ops with
  | nil => intro db; exact Nat.le_succ 0
  | cons op rest ih =>
      intro db
      show countOpenDm ((step db op).2 ++ (run (step db op).1 rest).2) c ≤ 1
      rw [countOpenDm_append]
      by_cases hz : countOpenDm (step db op).2 c = 0
      · have := ih (step db op).1
        omega
      · have h1 := (step_dm db op c).2.1
        have hany := any_of_countOpenDm (step db op).2 c hz
        have hopen := ((step_dm db op c).1.mp hany).2
        have hrest := (run_preserves_open c rest (step db op).1 hopen).2
        omega

/-- Claim C6: for every DM channel c, (1) a request publishes the open_dm
event for c exactly when it causes the false-to-true transition of the open
flags of c (the conditional update with its affected-row count decides this),
(2) once all flags of c are set, every trace keeps them set and never
publishes the event again, and (3) any trace publishes the event at most
once. -/
theorem C6_dm_open_transition_once (db : DB) (c : String) :
    (∀ op, ((step db op).2.any (isOpenDmFor c) = true ↔
      (dmAllOpen db c = false ∧ dmAllOpen (step db op).1 c = true))) ∧
    (∀ ops, dmAllOpen db c = true →
      dmAllOpen (run db ops).1 c = true ∧ countOpenDm (run db ops).2 c = 0) ∧
    (∀ ops, countOpenDm (run db ops).2 c ≤ 1) :=
  ⟨fun op => (step_dm db op c).1,
   fun ops h => run_preserves_open c ops db h,
   fun ops => run_count_le_one c ops db⟩

def dmSendOp : Op := Op.sendOp "alice" 7 ⟨"d1", "yo", none, none, none⟩ false

theorem C6_dm_open_transition_once_witness :
    ((step wDB dmSendOp).2.any (isOpenDmFor "d1") = true ↔
      (dmAllOpen wDB "d1" = false ∧ dmAllOpen (step wDB dmSendOp).1 "d1" = true)) ∧
    countOpenDm (run wDB [dmSendOp, dmSendOp]).2 "d1" ≤ 1 ∧
    (dmAllOpen (run (step wDB dmSendOp).1 [dmSendOp]).1 "d1" = true ∧
      countOpenDm (run (step wDB dmSendOp).1 [dmSendOp]).2 "d1" = 0) :=
  ⟨(C6_dm_open_transition_once wDB "d1").1 dmSendOp,
   (C6_dm_open_transition_once wDB "d1").2.2 [dmSendOp, dmSendOp],
   (C6_dm_open_transition_once (step wDB dmSendOp).1 "d1").2.1 [dmSendOp]
     (by decide)⟩
